import Mathlib

/-!
Verification development for the PyQT-reactive GUI coordination core.

We shallowly embed the coordination logic of the repository:

* `LiveContextService` (registry, token counter, snapshot collection,
  ancestor-scope merging) from
  `src/pyqt_formgen/widgets/shared/services/live_context_service.py`;
* `CrossWindowPreviewMixin` (trailing-debounce routing of cross-window
  change/refresh events) from
  `src/pyqt_formgen/widgets/mixins/cross_window_preview_mixin.py`;
* `WindowManager` (scoped singleton windows, deferred navigation) from
  `src/pyqt_reactive/services/window_manager.py`;
* `IntervalSnapshotPoller` from
  `src/pyqt_reactive/services/interval_snapshot_poller.py`.

Embedding conventions:

* Python dictionaries whose entries are only ever looked up pointwise are
  embedded as functions `K → Option V`; dictionaries whose entry lists are
  iterated (`.items()`, `.values()`) are embedded as association lists.
* A scope id `"a::b::c"` is embedded as its list of `"::"`-separated
  segments `["a", "b", "c"]`; the root scope `""` is `[]`.  Joining with
  `"::"` and splitting on `"::"` translate to the identity on segment
  lists, and Python's truthiness test `if my_scope:` becomes `≠ []`.
* Mutation of process-wide state is embedded as explicit state passing;
  observable effects (listener invocations, factory calls, refresh-hook
  firings) are returned as explicit event logs.
* Qt timers are embedded by their expiry time in milliseconds; a run of
  timed events fires a pending single-shot timer exactly when the next
  event's timestamp is past the timer's expiry.
-/

namespace PyQtReactive

/-! ## Association-list dictionaries (Python `dict` with iterated entries) -/

/-- Lookup in an association list: first binding wins (Python dict lookup). -/
def dget {K V : Type} [DecidableEq K] (d : List (K × V)) (k : K) : Option V :=
  (d.find? (fun p => p.1 = k)).map (·.2)

/-- Python `d[k] = v`: replace the first binding of `k` in place, else append. -/
def dset {K V : Type} [DecidableEq K] (d : List (K × V)) (k : K) (v : V) :
    List (K × V) :=
  match d with
  | [] => [(k, v)]
  | (k', v') :: rest => if k' = k then (k, v) :: rest else (k', v') :: dset rest k v

/-- Python `d.values()`. -/
def dvalues {K V : Type} (d : List (K × V)) : List V := d.map (·.2)

/-- Python `k in d`. -/
def dmem {K V : Type} [DecidableEq K] (d : List (K × V)) (k : K) : Bool :=
  (dget d k).isSome

/-- Python `del d[k]` (removes every binding of `k`; a Python dict holds one). -/
def ddel {K V : Type} [DecidableEq K] (d : List (K × V)) (k : K) : List (K × V) :=
  d.filter (fun p => p.1 ≠ k)

theorem dget_dset {K V : Type} [DecidableEq K] (d : List (K × V)) (k k' : K) (v : V) :
    dget (dset d k v) k' = if k' = k then some v else dget d k' := by
  induction d with
  | nil =>
    by_cases h : k' = k
    · subst h; simp [dset, dget, List.find?]
    · have h₂ : ¬ k = k' := fun hc => h hc.symm
      simp [dset, dget, List.find?, h, h₂]
  | cons p rest ih =>
    obtain ⟨k₀, v₀⟩ := p
    by_cases h₀ : k₀ = k
    · subst h₀
      by_cases h : k' = k₀
      · subst h; simp [dset, dget, List.find?]
      · have h₂ : ¬ k₀ = k' := fun hc => h hc.symm
        simp [dset, dget, List.find?, h, h₂]
    · by_cases h : k' = k₀
      · subst h
        simp [dset, dget, List.find?, h₀]
      · have h₂ : ¬ k₀ = k' := fun hc => h hc.symm
        simp only [dset, if_neg h₀, dget, List.find?, decide_eq_false h₂] at ih ⊢
        exact ih

/-! ## Scope ids and ancestor chains

A scope id is embedded as its list of `"::"`-separated segments. -/

abbrev Scope := List String

/-- The ancestor chain of `merge_ancestor_values`: the root scope `""` is
always included; for a non-empty scope `"p1::…::pn"` the chain additionally
holds every prefix `"p1::…::pi"`, least specific first. -/
def ancestorChain (myScope : Scope) : List Scope :=
  [[]] ++ (if myScope = [] then []
           else (List.range myScope.length).map (fun i => myScope.take (i + 1)))

/-! ## Pointwise dictionaries (Python `dict` used only via lookup/override) -/

/-- A per-type mapping of field names to values. -/
abbrev FieldMap (V : Type) := String → Option V

/-- Per-scope data: config type → field values.  Config types (Python
`type` objects) are embedded as strings. -/
abbrev ScopeData (V : Type) := String → Option (FieldMap V)

/-- The `scopes` dict of a `LiveContextSnapshot`: scope id → type → values. -/
abbrev Scopes (V : Type) := Scope → Option (ScopeData V)

/-- The empty pointwise dictionary. -/
def emptyDict {K V : Type} : K → Option V := fun _ => none

/-- Python `dst.update(src)`: bindings of `src` overwrite those of `dst`. -/
def dictUpdate {V : Type} (dst src : FieldMap V) : FieldMap V :=
  fun f => match src f with
  | some v => some v
  | none => dst f

/-- The inner loop of `merge_ancestor_values`: fold one scope's data into the
accumulated result (`result[config_type].update(values)` for every config
type present, creating the entry when absent). -/
def mergeScopeData {V : Type} (result : ScopeData V) (scopeData : ScopeData V) :
    ScopeData V :=
  fun t => match scopeData t with
  | some values => some (dictUpdate ((result t).getD emptyDict) values)
  | none => result t

/-- `LiveContextService.merge_ancestor_values(scopes, my_scope)`: merge the
per-type field mappings of every ancestor scope, least specific first, so
that more specific values overwrite less specific ones. -/
def merge_ancestor_values {V : Type} (scopes : Scopes V) (myScope : Scope) :
    ScopeData V :=
  (ancestorChain myScope).foldl
    (fun result a => mergeScopeData result ((scopes a).getD emptyDict))
    emptyDict

/-- Direct lookup of field `f` for type `t` in the data scope `a` holds. -/
def scopeLookup {V : Type} (scopes : Scopes V) (a : Scope) (t : String)
    (f : String) : Option V :=
  ((scopes a).getD emptyDict t).bind (fun values => values f)

theorem mergeScopeData_lookup {V : Type} (acc sd : ScopeData V) (t f : String) :
    ((mergeScopeData acc sd) t).bind (fun vs => vs f)
      = ((sd t).bind (fun vs => vs f)).orElse
          (fun _ => (acc t).bind (fun vs => vs f)) := by
  unfold mergeScopeData
  cases hsd : sd t with
  | none => simp
  | some values =>
    simp only [Option.bind_some, Option.some_bind]
    cases hv : values f with
    | none =>
      cases hacc : acc t with
      | none => simp [dictUpdate, hv, emptyDict, hacc]
      | some av => simp [dictUpdate, hv, hacc]
    | some v => simp [dictUpdate, hv]

theorem foldl_merge_lookup {V : Type} (scopes : Scopes V) (t f : String)
    (l : List Scope) :
    ∀ acc : ScopeData V,
      ((l.foldl (fun r a => mergeScopeData r ((scopes a).getD emptyDict)) acc) t).bind
          (fun vs => vs f)
        = (l.reverse.findSome? (fun a => scopeLookup scopes a t f)).orElse
            (fun _ => (acc t).bind (fun vs => vs f)) := by
  induction l with
  | nil => intro acc; simp
  | cons a rest ih =>
    intro acc
    simp only [List.foldl_cons, List.reverse_cons, List.findSome?_append]
    rw [ih]
    rw [mergeScopeData_lookup]
    cases hfs : rest.reverse.findSome? (fun a => scopeLookup scopes a t f) with
    | some v => simp
    | none =>
      cases ho : ((scopes a).getD emptyDict t).bind (fun vs => vs f) with
      | some v => simp [List.findSome?, scopeLookup, ho]
      | none => simp [List.findSome?, scopeLookup, ho]

/-- The scopes mapping of the spec's ancestor-merge example: scopes `""`,
`"A"`, `"A::B"` hold `{x:1}`, `{x:2, y:1}`, `{x:3}` respectively for type
`T`. -/
def exampleScopes : Scopes Int := fun s =>
  if s = ([] : Scope) then
    some (fun t => if t = "T" then some (fun f => if f = "x" then some 1 else none)
                   else none)
  else if s = ["A"] then
    some (fun t => if t = "T" then
            some (fun f => if f = "x" then some 2
                           else if f = "y" then some 1 else none)
          else none)
  else if s = ["A", "B"] then
    some (fun t => if t = "T" then some (fun f => if f = "x" then some 3 else none)
                   else none)
  else none

/-- **C1.** `merge_ancestor_values(scopes, my_scope)` merges per-type field
mappings over the ancestor chain from the root scope up to `my_scope`
inclusive, with values from more specific (longer) scopes overwriting values
from less specific ancestors: the merged value of any field for any type is
the value held by the most specific ancestor scope that defines it.  In
particular, for scopes `""`, `"A"`, `"A::B"` holding `{x:1}`, `{x:2,y:1}`,
`{x:3}` for type `T`, the merge at scope `"A::B"` yields exactly `{x:3, y:1}`
for `T`.  The function is a pure function of its two inputs (it is a Lean
function of them). -/
theorem merge_ancestor_values_spec :
    (∀ (V : Type) (scopes : Scopes V) (myScope : Scope) (t f : String),
        (merge_ancestor_values scopes myScope t).bind (fun vs => vs f)
          = ((ancestorChain myScope).reverse.findSome?
              (fun a => scopeLookup scopes a t f)))
    ∧ (∀ f : String,
        (merge_ancestor_values exampleScopes ["A", "B"] "T").bind (fun vs => vs f)
          = if f = "x" then some 3 else if f = "y" then some 1 else none) := by
  have hgen : ∀ (V : Type) (scopes : Scopes V) (myScope : Scope) (t f : String),
      (merge_ancestor_values scopes myScope t).bind (fun vs => vs f)
        = ((ancestorChain myScope).reverse.findSome?
            (fun a => scopeLookup scopes a t f)) := by
    intro V scopes myScope t f
    unfold merge_ancestor_values
    rw [foldl_merge_lookup]
    simp [emptyDict]
  refine ⟨hgen, ?_⟩
  intro f
  rw [hgen]
  have hchain : ancestorChain (["A", "B"] : Scope) = [[], ["A"], ["A", "B"]] := by
    simp [ancestorChain, List.range_succ]
  rw [hchain]
  by_cases hx : f = "x"
  · subst hx; simp [List.findSome?, scopeLookup, exampleScopes]
  · by_cases hy : f = "y"
    · subst hy; simp [List.findSome?, scopeLookup, exampleScopes]
    · simp [List.findSome?, scopeLookup, exampleScopes, hx, hy]

/-! ## LiveContextService: registry, token counter, snapshot collection

From `live_context_service.py`.  The service is a class-level singleton; we
embed its mutable class attributes as an explicit `ServiceState` threaded
through the operations.  Listener callbacks are embedded as numeric ids with
an aliveness environment (`alive c = false` models a callback whose bound Qt
object was deleted); each operation returns the list of listener ids it
invoked as its event log. -/

/-- A `ParameterFormManager` as seen by the service: Python object identity
(`mid`), the truthiness and type of `object_instance` (embedded as
`Option String`: `some t` means a live instance of type `t`),
`get_user_modified_values()`, `scope_id`, and `nested_managers`. -/
inductive Manager (V : Type) : Type where
  | node (mid : Nat) (objectType : Option String) (values : FieldMap V)
      (scopeId : Option Scope) (nested : List (String × Manager V))

/-- Python object identity of a manager. -/
def Manager.mid {V : Type} : Manager V → Nat
  | .node i _ _ _ _ => i

/-- `LiveContextSnapshot`: immutable value with `token` and `scopes`. -/
structure LiveContextSnapshot (V : Type) : Type where
  token : Nat
  scopes : Scopes V

/-- The class-level mutable state of `LiveContextService`.
`liveContextCache` and `dispatchCache` stand for the external
`TokenCache` and dispatch-cycle cache. Modelled from the spec: `TokenCache`
and `get_dispatch_cache` live in the external `openhcs.config_framework`
package, not in this repository; per the spec, the token cache returns its
stored snapshot unchanged iff the stored token equals the current token, and
the dispatch cache makes all `collect()` calls within one dispatch cycle
observe the identical snapshot (`dispatchCache = none` means no dispatch
cycle is active). -/
structure ServiceState (V : Type) : Type where
  activeFormManagers : List (Manager V)
  changeCallbacks : List Nat
  tokenCounter : Nat
  liveContextCache : Option (Nat × LiveContextSnapshot V)
  dispatchCache : Option (Option (LiveContextSnapshot V))

/-- `_notify_change`: invoke every listener whose object is still alive and
prune the dead ones.  Returns the new state and the invoked listener ids. -/
def notifyChange {V : Type} (alive : Nat → Bool) (s : ServiceState V) :
    ServiceState V × List Nat :=
  ({ s with changeCallbacks := s.changeCallbacks.filter alive },
    s.changeCallbacks.filter alive)

/-- `increment_token(notify)`: bump the counter; notify listeners iff
`notify`. -/
def increment_token {V : Type} (alive : Nat → Bool) (notify : Bool)
    (s : ServiceState V) : ServiceState V × List Nat :=
  let s' := { s with tokenCounter := s.tokenCounter + 1 }
  if notify then notifyChange alive s' else (s', [])

/-- `register(manager)`: add to the active `WeakSet` (identity-based, so a
manager already present is not duplicated), then `increment_token(notify=False)`. -/
def register {V : Type} (alive : Nat → Bool) (m : Manager V)
    (s : ServiceState V) : ServiceState V × List Nat :=
  let managers :=
    if s.activeFormManagers.any (fun m' => m'.mid = m.mid) then s.activeFormManagers
    else s.activeFormManagers ++ [m]
  increment_token alive false { s with activeFormManagers := managers }

/-- `unregister(manager)`: discard from the active set, then
`increment_token()` (notify defaults to `True`). -/
def unregister {V : Type} (alive : Nat → Bool) (m : Manager V)
    (s : ServiceState V) : ServiceState V × List Nat :=
  increment_token alive true
    { s with activeFormManagers :=
        s.activeFormManagers.filter (fun m' => ¬ m'.mid = m.mid) }

/-- One step of `_collect_from_manager_tree`'s self contribution:
`scopes.setdefault(scope_id, {})[type(object_instance)] = values`. -/
def writeScope {V : Type} (scopes : Scopes V) (sid : Scope) (t : String)
    (values : FieldMap V) : Scopes V :=
  fun s =>
    if s = sid then
      some (fun t' => if t' = t then some values else (scopes sid).getD emptyDict t')
    else scopes s

mutual

/-- `_collect_from_manager_tree(manager, scopes)`: record the manager's own
values under its scope when it holds a live object instance, then recurse
into every nested manager. -/
def collectFromManagerTree {V : Type} (m : Manager V) (scopes : Scopes V) :
    Scopes V :=
  match m with
  | .node _ objectType values scopeId nested =>
    let scopes₁ :=
      match objectType with
      | some t => writeScope scopes (scopeId.getD []) t values
      | none => scopes
    collectFromNested nested scopes₁

/-- Recursion over `manager.nested_managers.values()`. -/
def collectFromNested {V : Type} (l : List (String × Manager V))
    (scopes : Scopes V) : Scopes V :=
  match l with
  | [] => scopes
  | (_, m) :: rest => collectFromNested rest (collectFromManagerTree m scopes)

end

/-- The `compute_live_context` closure inside `collect`. -/
def computeLiveContext {V : Type} (s : ServiceState V) : LiveContextSnapshot V :=
  { token := s.tokenCounter,
    scopes := s.activeFormManagers.foldl (fun sc m => collectFromManagerTree m sc)
      emptyDict }

/-- Store a freshly returned snapshot in the dispatch-cycle cache when a
dispatch cycle is active. -/
def writeDispatch {V : Type} (s : ServiceState V) (snap : LiveContextSnapshot V) :
    ServiceState V :=
  match s.dispatchCache with
  | some _ => { s with dispatchCache := some (some snap) }
  | none => s

/-- `collect()`: return the dispatch-cycle cached snapshot when one is
present; otherwise return the token-cached snapshot when its token is still
current, else recompute, memoize under the current token, and store in the
dispatch cache. -/
def collect {V : Type} (s : ServiceState V) :
    LiveContextSnapshot V × ServiceState V :=
  match s.dispatchCache with
  | some (some snap) => (snap, s)
  | _ =>
    match s.liveContextCache with
    | some (tok, snap) =>
      if tok = s.tokenCounter then (snap, writeDispatch s snap)
      else
        let snap' := computeLiveContext s
        (snap', writeDispatch
          { s with liveContextCache := some (s.tokenCounter, snap') } snap')
    | none =>
      let snap' := computeLiveContext s
      (snap', writeDispatch
        { s with liveContextCache := some (s.tokenCounter, snap') } snap')

/-- The token cache never stores a snapshot under a token other than the
snapshot's own: every cache write in `collect` pairs the snapshot computed at
the current token with that token. -/
def CacheWF {V : Type} (s : ServiceState V) : Prop :=
  ∀ tok snap, s.liveContextCache = some (tok, snap) → snap.token = tok

/-- **C2.** With no dispatch cycle active and a well-formed token cache: a
second `collect()` with no intervening mutation returns the identical
snapshot (the cached object itself — the state, token cache included, is
unchanged, so no recomputation happens); a `register` between the two
`collect()` calls makes the second call return a snapshot whose token is
exactly one more than — in particular strictly greater than — the first
snapshot's token. -/
theorem collect_cache_spec {V : Type} (alive : Nat → Bool) (s : ServiceState V)
    (m : Manager V) (hdisp : s.dispatchCache = none) (hwf : CacheWF s) :
    collect ((collect s).2) = collect s ∧
    (collect ((register alive m (collect s).2).1)).1.token = (collect s).1.token + 1 ∧
    (collect s).1.token < (collect ((register alive m (collect s).2).1)).1.token := by
  obtain ⟨mgrs, cbs, tok₀, cache, disp⟩ := s
  simp only at hdisp
  subst hdisp
  have hne : ¬ (tok₀ = tok₀ + 1) := by omega
  cases cache with
  | none =>
    refine ⟨?_, ?_, ?_⟩ <;>
      simp [collect, writeDispatch, computeLiveContext, register, increment_token,
        hne]
  | some p =>
    obtain ⟨tok, snap⟩ := p
    by_cases h : tok = tok₀
    · subst h
      have hsnap : snap.token = tok := hwf tok snap rfl
      refine ⟨?_, ?_, ?_⟩ <;>
        simp [collect, writeDispatch, computeLiveContext, register, increment_token,
          hne, hsnap]
    · refine ⟨?_, ?_, ?_⟩ <;>
        simp [collect, writeDispatch, computeLiveContext, register, increment_token,
          hne, h]

/-- A concrete empty service state, used by the witnesses below. -/
def emptyService : ServiceState Int :=
  { activeFormManagers := [], changeCallbacks := [], tokenCounter := 0,
    liveContextCache := none, dispatchCache := none }

/-- A concrete manager with no object instance. -/
def bareManager : Manager Int := .node 0 none emptyDict none []

/-- Witness for C2 at a concrete empty service state. -/
theorem collect_cache_spec_witness :
    collect ((collect emptyService).2) = collect emptyService ∧
    (collect ((register (fun _ => true) bareManager
        ((collect emptyService).2)).1)).1.token =
      (collect emptyService).1.token + 1 ∧
    (collect emptyService).1.token <
      (collect ((register (fun _ => true) bareManager
        ((collect emptyService).2)).1)).1.token :=
  collect_cache_spec (fun _ => true) emptyService bareManager rfl
    (fun _ _ h => by simp [emptyService] at h)

/-! ### Token monotonicity over register/unregister sequences (C3) -/

/-- A registry mutation, for reasoning about arbitrary call sequences. -/
inductive ServiceOp (V : Type) : Type where
  | registerOp (m : Manager V)
  | unregisterOp (m : Manager V)

/-- Apply one `register`/`unregister` call. -/
def applyOp {V : Type} (alive : Nat → Bool) :
    ServiceOp V → ServiceState V → ServiceState V × List Nat
  | .registerOp m, s => register alive m s
  | .unregisterOp m, s => unregister alive m s

/-- Apply a sequence of calls, concatenating the listener-invocation logs. -/
def applyOps {V : Type} (alive : Nat → Bool) :
    List (ServiceOp V) → ServiceState V → ServiceState V × List Nat
  | [], s => (s, [])
  | op :: rest, s =>
    let p := applyOp alive op s
    let q := applyOps alive rest p.1
    (q.1, p.2 ++ q.2)

theorem applyOp_token {V : Type} (alive : Nat → Bool) (op : ServiceOp V)
    (s : ServiceState V) :
    (applyOp alive op s).1.tokenCounter = s.tokenCounter + 1 := by
  cases op <;> simp [applyOp, register, unregister, increment_token, notifyChange]

theorem applyOps_token {V : Type} (alive : Nat → Bool) (ops : List (ServiceOp V)) :
    ∀ s : ServiceState V,
      (applyOps alive ops s).1.tokenCounter = s.tokenCounter + ops.length := by
  induction ops with
  | nil => intro s; simp [applyOps]
  | cons op rest ih =>
    intro s
    simp only [applyOps]
    rw [ih, applyOp_token]
    simp [Nat.add_assoc, Nat.add_comm 1]

/-- **C3.** Every `register` and every `unregister` call bumps the global
token by exactly one (so over any sequence of such calls the token strictly
increases on every call); `register` invokes no listener callback, while
`unregister` invokes every connected listener callback (all assumed alive). -/
theorem register_unregister_token_notify {V : Type} (alive : Nat → Bool)
    (s : ServiceState V) (m : Manager V) (ops : List (ServiceOp V))
    (halive : ∀ c ∈ s.changeCallbacks, alive c = true) :
    (register alive m s).2 = [] ∧
    (register alive m s).1.tokenCounter = s.tokenCounter + 1 ∧
    (unregister alive m s).1.tokenCounter = s.tokenCounter + 1 ∧
    (unregister alive m s).2 = s.changeCallbacks ∧
    (applyOps alive ops s).1.tokenCounter = s.tokenCounter + ops.length ∧
    (ops ≠ [] → s.tokenCounter < (applyOps alive ops s).1.tokenCounter) := by
  refine ⟨?_, ?_, ?_, ?_, ?_, ?_⟩
  · simp [register, increment_token]
  · simp [register, increment_token]
  · simp [unregister, increment_token, notifyChange]
  · simp only [unregister, increment_token, notifyChange, if_pos]
    exact List.filter_eq_self.mpr halive
  · exact applyOps_token alive ops s
  · intro hne
    rw [applyOps_token alive ops s]
    have : 0 < ops.length := List.length_pos.mpr hne
    omega

/-- A concrete service state with two alive listeners. -/
def listenerService : ServiceState Int :=
  { activeFormManagers := [], changeCallbacks := [7, 8], tokenCounter := 5,
    liveContextCache := none, dispatchCache := none }

/-- Witness for C3 at a concrete state with two alive listeners and a
two-call register/unregister sequence. -/
theorem register_unregister_token_notify_witness :
    (register (fun _ => true) bareManager listenerService).2 = [] ∧
    (register (fun _ => true) bareManager listenerService).1.tokenCounter = 6 ∧
    (unregister (fun _ => true) bareManager listenerService).1.tokenCounter = 6 ∧
    (unregister (fun _ => true) bareManager listenerService).2 = [7, 8] ∧
    (applyOps (fun _ => true) [.registerOp bareManager, .unregisterOp bareManager]
      listenerService).1.tokenCounter = 7 ∧
    (5 : Nat) <
      (applyOps (fun _ => true) [.registerOp bareManager, .unregisterOp bareManager]
        listenerService).1.tokenCounter := by
  have h := register_unregister_token_notify (V := Int) (fun _ => true)
    listenerService bareManager
    [.registerOp bareManager, .unregisterOp bareManager]
    (by intro c _; rfl)
  refine ⟨h.1, ?_, ?_, h.2.2.2.1, ?_, h.2.2.2.2.2 (by simp)⟩
  · rw [h.2.1]; rfl
  · rw [h.2.2.1]; rfl
  · rw [h.2.2.2.2.1]; rfl

/-! ## CrossWindowPreviewMixin: debounced cross-window routing

From `cross_window_preview_mixin.py`.  Item keys are an arbitrary type `K`
with decidable equality (Python "opaque hashable item keys").  The two
subclass hooks feeding `handle_cross_window_preview_change` are embedded by
their results: `shouldProcess` is the value of
`_should_process_preview_field(...)` and `scopeId` the value of
`_extract_scope_id_for_preview(...)` (`none` = Python `None`).  The
single-shot `QTimer` is embedded by its expiry time (start time plus the
debounce delay, in milliseconds) and the hook its `timeout` signal was
connected to. -/

/-- `PREVIEW_UPDATE_DEBOUNCE_MS`. -/
def PREVIEW_UPDATE_DEBOUNCE_MS : Nat := 100

/-- The pending `_preview_update_timer`: expiry time and whether `timeout`
is connected to `_handle_full_preview_refresh` (`fullRefresh = true`) or to
`_process_pending_preview_updates` (`fullRefresh = false`). -/
structure PreviewTimer : Type where
  expiry : Nat
  fullRefresh : Bool
  deriving DecidableEq

/-- The mixin's per-window state: `_preview_scope_map` (iterated via
`.values()`, hence an association list), `_pending_preview_keys`, and
`_preview_update_timer`. -/
structure MixinState (K : Type) [DecidableEq K] : Type where
  previewScopeMap : List (String × K)
  pendingPreviewKeys : Finset K
  previewUpdateTimer : Option PreviewTimer

/-- `_schedule_preview_update(full_refresh)`: stop any existing timer and
start a fresh single-shot timer for `max 0 PREVIEW_UPDATE_DEBOUNCE_MS`
milliseconds, connected to the full or incremental hook. -/
def schedulePreviewUpdate {K : Type} [DecidableEq K] (fullRefresh : Bool)
    (now : Nat) (s : MixinState K) : MixinState K :=
  { s with
    previewUpdateTimer := some (PreviewTimer.mk (now + max 0 PREVIEW_UPDATE_DEBOUNCE_MS) fullRefresh) }

/-- `handle_cross_window_preview_change(field_path, new_value,
editing_object, context_object)` at time `now`, given the hook results. -/
def handle_cross_window_preview_change {K : Type} [DecidableEq K]
    (shouldProcess : Bool) (scopeId : Option String) (now : Nat)
    (s : MixinState K) : MixinState K :=
  if shouldProcess then
    match scopeId with
    | some sid =>
      if sid = "PIPELINE_CONFIG_CHANGE" ∨ sid = "GLOBAL_CONFIG_CHANGE" then
        schedulePreviewUpdate false now
          { s with pendingPreviewKeys :=
              s.pendingPreviewKeys ∪ (dvalues s.previewScopeMap).toFinset }
      else if sid = "" then s
      else
        match dget s.previewScopeMap sid with
        | some k =>
          schedulePreviewUpdate false now
            { s with pendingPreviewKeys := insert k s.pendingPreviewKeys }
        | none => s
    | none => schedulePreviewUpdate true now s
  else s

/-- `handle_cross_window_preview_refresh(editing_object, context_object)` at
time `now`: the source file re-implements the same routing (its comment:
"same logic as handle_cross_window_preview_change"), with no field-relevance
filter; the embedding mirrors that duplication. -/
def handle_cross_window_preview_refresh {K : Type} [DecidableEq K]
    (scopeId : Option String) (now : Nat) (s : MixinState K) : MixinState K :=
  match scopeId with
  | some sid =>
    if sid = "PIPELINE_CONFIG_CHANGE" ∨ sid = "GLOBAL_CONFIG_CHANGE" then
      schedulePreviewUpdate false now
        { s with pendingPreviewKeys :=
            s.pendingPreviewKeys ∪ (dvalues s.previewScopeMap).toFinset }
    else if sid = "" then s
    else
      match dget s.previewScopeMap sid with
      | some k =>
        schedulePreviewUpdate false now
          { s with pendingPreviewKeys := insert k s.pendingPreviewKeys }
      | none => s
  | none => schedulePreviewUpdate true now s

/-- **C7.** The claim's behavioral content holds: past the field-relevance
filter, `handle_cross_window_preview_refresh` performs exactly the same
scope resolution and pending-key coalescing as
`handle_cross_window_preview_change` — both map the reserved sentinels to
all mapped item keys, a mapped scope id to its single item key, a null
scope id to an immediate full-refresh schedule, and an unmapped (or
empty-string) non-null scope id to a no-op.  The claim's structural clause,
however, is violated by the source: the routing is not obtained "by reusing
the same routing function" — `handle_cross_window_preview_refresh`
re-implements the routing chain as a verbatim copy (its comment: "same
logic as handle_cross_window_preview_change"), and the two embedded
definitions mirror that duplication; this theorem certifies that the two
duplicated blocks behave identically. -/
theorem refresh_matches_change_routing {K : Type} [DecidableEq K]
    (scopeId : Option String) (now : Nat) (s : MixinState K) :
    handle_cross_window_preview_refresh scopeId now s
      = handle_cross_window_preview_change true scopeId now s ∧
    handle_cross_window_preview_change true none now s
      = schedulePreviewUpdate true now s ∧
    (∀ sid, (sid = "PIPELINE_CONFIG_CHANGE" ∨ sid = "GLOBAL_CONFIG_CHANGE") →
      handle_cross_window_preview_change true (some sid) now s
        = schedulePreviewUpdate false now
            { s with pendingPreviewKeys :=
                s.pendingPreviewKeys ∪ (dvalues s.previewScopeMap).toFinset }) ∧
    (∀ sid k, ¬(sid = "PIPELINE_CONFIG_CHANGE" ∨ sid = "GLOBAL_CONFIG_CHANGE") →
      sid ≠ "" → dget s.previewScopeMap sid = some k →
      handle_cross_window_preview_change true (some sid) now s
        = schedulePreviewUpdate false now
            { s with pendingPreviewKeys := insert k s.pendingPreviewKeys }) ∧
    (∀ sid, ¬(sid = "PIPELINE_CONFIG_CHANGE" ∨ sid = "GLOBAL_CONFIG_CHANGE") →
      dget s.previewScopeMap sid = none →
      handle_cross_window_preview_change true (some sid) now s = s) ∧
    handle_cross_window_preview_change true (some "") now s = s := by
  refine ⟨?_, rfl, ?_, ?_, ?_, ?_⟩
  · cases scopeId with
    | none => rfl
    | some sid =>
      simp only [handle_cross_window_preview_refresh,
        handle_cross_window_preview_change, if_true]
  · intro sid hsent
    simp [handle_cross_window_preview_change, hsent]
  · intro sid k hsent hne hget
    simp [handle_cross_window_preview_change, hsent, hne, hget]
  · intro sid hsent hget
    by_cases hne : sid = ""
    · subst hne; simp [handle_cross_window_preview_change, hsent]
    · simp [handle_cross_window_preview_change, hsent, hne, hget]
  · simp [handle_cross_window_preview_change]

/-- Witness for C7 at a concrete mixin state and scope id. -/
theorem refresh_matches_change_routing_witness :
    (handle_cross_window_preview_refresh (some "a") 3
        ({ previewScopeMap := [("a", 1)], pendingPreviewKeys := ∅,
           previewUpdateTimer := none } : MixinState Nat)
      = handle_cross_window_preview_change true (some "a") 3
        ({ previewScopeMap := [("a", 1)], pendingPreviewKeys := ∅,
           previewUpdateTimer := none } : MixinState Nat)) ∧
    handle_cross_window_preview_change true (some "a") 3
        ({ previewScopeMap := [("a", 1)], pendingPreviewKeys := ∅,
           previewUpdateTimer := none } : MixinState Nat)
      = schedulePreviewUpdate false 3
        ({ previewScopeMap := [("a", 1)], pendingPreviewKeys := {1},
           previewUpdateTimer := none } : MixinState Nat) := by
  have h := refresh_matches_change_routing (K := Nat) (some "a") 3
    { previewScopeMap := [("a", 1)], pendingPreviewKeys := ∅,
      previewUpdateTimer := none }
  refine ⟨h.1, ?_⟩
  have h4 := h.2.2.2.1 "a" 1 (by decide) (by decide) (by decide)
  rw [h4]; rfl

/-! ### Timed runs of preview-change calls (trailing debounce)

A run is a list of `handle_cross_window_preview_change` calls, each with a
timestamp (ms).  Before each call the pending single-shot timer fires iff
its expiry has been reached; after the calls stop, time passes the full
delay and any pending timer fires.  A firing of the timer invokes the hook
its `timeout` signal was connected to; an incremental invocation carries
`_pending_preview_keys` as the hook observes it. -/

/-- A refresh-hook invocation caused by the debounce timer firing. -/
inductive PreviewInvocation (K : Type) [DecidableEq K] : Type where
  | incremental (keys : Finset K)
  | fullRefresh

/-- One `handle_cross_window_preview_change` call: its arrival time and the
results of the two subclass hooks on its arguments. -/
structure PreviewCall : Type where
  time : Nat
  shouldProcess : Bool
  scopeId : Option String

/-- Fire the pending timer now (single-shot: the timer is consumed; the
mixin itself does not clear `_pending_preview_keys` — the connected hooks
are subclass responsibilities). -/
def fireTimer {K : Type} [DecidableEq K] (s : MixinState K) :
    MixinState K × List (PreviewInvocation K) :=
  match s.previewUpdateTimer with
  | some tm =>
    ({ s with previewUpdateTimer := none },
      [if tm.fullRefresh then .fullRefresh else .incremental s.pendingPreviewKeys])
  | none => (s, [])

/-- Fire the pending timer iff its expiry has been reached at time `t`. -/
def fireIfDue {K : Type} [DecidableEq K] (t : Nat) (s : MixinState K) :
    MixinState K × List (PreviewInvocation K) :=
  match s.previewUpdateTimer with
  | some tm => if tm.expiry ≤ t then fireTimer s else (s, [])
  | none => (s, [])

/-- Run a chronological list of calls, firing the timer when due. -/
def runPreviewCalls {K : Type} [DecidableEq K] :
    List PreviewCall → MixinState K → MixinState K × List (PreviewInvocation K)
  | [], s => (s, [])
  | c :: rest, s =>
    let p := fireIfDue c.time s
    let s₁ := handle_cross_window_preview_change c.shouldProcess c.scopeId c.time p.1
    let q := runPreviewCalls rest s₁
    (q.1, p.2 ++ q.2)

/-- Run the calls, then let time pass the full debounce delay so that any
pending timer fires (trailing debounce: calls have stopped arriving). -/
def runPreviewScenario {K : Type} [DecidableEq K] (calls : List PreviewCall)
    (s : MixinState K) : MixinState K × List (PreviewInvocation K) :=
  let p := runPreviewCalls calls s
  let q := fireTimer p.1
  (q.1, p.2 ++ q.2)

/-- The affected item keys of a list of calls under a scope map. -/
def previewCallKeys {K : Type} [DecidableEq K] (map : List (String × K))
    (calls : List PreviewCall) : Finset K :=
  (calls.filterMap (fun c => c.scopeId.bind (fun sid => dget map sid))).toFinset

/-- A call that passes the field-relevance filter and resolves to a mapped,
non-sentinel, non-null scope id. -/
def GoodCall {K : Type} [DecidableEq K] (map : List (String × K))
    (c : PreviewCall) : Prop :=
  c.shouldProcess = true ∧ ∃ sid, c.scopeId = some sid ∧
    sid ≠ "PIPELINE_CONFIG_CHANGE" ∧ sid ≠ "GLOBAL_CONFIG_CHANGE" ∧
    sid ≠ "" ∧ (dget map sid).isSome = true

theorem runPreviewCalls_good {K : Type} [DecidableEq K] (t₀ : Nat)
    (map : List (String × K)) :
    ∀ (calls : List PreviewCall) (s : MixinState K),
      s.previewScopeMap = map →
      (∀ c ∈ calls, GoodCall map c) →
      (∀ c ∈ calls, t₀ ≤ c.time ∧ c.time < t₀ + 100) →
      (s.previewUpdateTimer = none ∨
        ∃ u, t₀ ≤ u ∧ s.previewUpdateTimer = some (PreviewTimer.mk (u + 100) false)) →
      (runPreviewCalls calls s).2 = [] ∧
      (runPreviewCalls calls s).1.previewScopeMap = map ∧
      (runPreviewCalls calls s).1.pendingPreviewKeys
        = s.pendingPreviewKeys ∪ previewCallKeys map calls ∧
      (calls = [] → (runPreviewCalls calls s).1 = s) ∧
      (calls ≠ [] → ∃ u, t₀ ≤ u ∧
        (runPreviewCalls calls s).1.previewUpdateTimer
          = some (PreviewTimer.mk (u + 100) false)) := by
  intro calls
  induction calls with
  | nil =>
    intro s hmap _ _ _
    refine ⟨rfl, hmap, ?_, fun _ => rfl, fun h => absurd rfl h⟩
    simp [runPreviewCalls, previewCallKeys]
  | cons c rest ih =>
    intro s hmap hgood hwin htimer
    obtain ⟨hsp, sid, hsc, hs1, hs2, hs3, hs4⟩ := hgood c (List.mem_cons_self c rest)
    obtain ⟨k, hk⟩ := Option.isSome_iff_exists.mp hs4
    have hct := hwin c (List.mem_cons_self c rest)
    -- the timer (if any) has not yet expired at `c.time`, so no firing
    have hfire : fireIfDue (K := K) c.time s = (s, []) := by
      rcases htimer with h | ⟨u, hu, h⟩
      · simp [fireIfDue, h]
      · have : ¬ (u + 100 ≤ c.time) := by omega
        simp [fireIfDue, h, this]
    -- the call adds its key and restarts the timer in incremental mode
    have hk' : dget s.previewScopeMap sid = some k := by rw [hmap]; exact hk
    have hstep : handle_cross_window_preview_change c.shouldProcess c.scopeId c.time s
        = { s with pendingPreviewKeys := insert k s.pendingPreviewKeys,
                   previewUpdateTimer :=
                     some (PreviewTimer.mk (c.time + 100) false) } := by
      rw [hsp, hsc]
      simp [handle_cross_window_preview_change, hs1, hs2, hs3, hk',
        schedulePreviewUpdate, PREVIEW_UPDATE_DEBOUNCE_MS]
    set s₁ : MixinState K :=
      { s with pendingPreviewKeys := insert k s.pendingPreviewKeys,
               previewUpdateTimer := some (PreviewTimer.mk (c.time + 100) false) }
      with hs₁
    have := ih s₁ hmap (fun c' hc' => hgood c' (List.mem_cons_of_mem c hc'))
      (fun c' hc' => hwin c' (List.mem_cons_of_mem c hc'))
      (Or.inr ⟨c.time, hct.1, rfl⟩)
    obtain ⟨ilog, imap, ipend, inil, icons⟩ := this
    have hrun : runPreviewCalls (c :: rest) s
        = ((runPreviewCalls rest s₁).1, [] ++ (runPreviewCalls rest s₁).2) := by
      simp only [runPreviewCalls, hfire, hstep, hs₁]
    refine ⟨?_, ?_, ?_, ?_, ?_⟩
    · rw [hrun]; simp [ilog]
    · rw [hrun]; exact imap
    · rw [hrun]
      simp only [ipend, hs₁]
      have hkeys : previewCallKeys map (c :: rest)
          = insert k (previewCallKeys map rest) := by
        simp [previewCallKeys, hsc, hk]
      rw [hkeys]
      simp [Finset.insert_union, Finset.union_insert]
    · intro h; exact absurd h (List.cons_ne_nil c rest)
    · intro _
      rw [hrun]
      rcases eq_or_ne rest [] with hr | hr
      · subst hr
        refine ⟨c.time, hct.1, ?_⟩
        rw [inil rfl]
      · exact icons hr

/-- **C4.** For every nonempty sequence of `handle_cross_window_preview_change`
calls arriving within a single 100 ms debounce window — each passing the
field-relevance filter and resolving to a mapped (non-sentinel, non-null)
scope id — exactly one incremental-refresh invocation occurs, after the
calls stop, carrying the union of all affected item keys across the calls,
and zero full-refresh invocations occur (each call restarts the delay timer,
so no timer fires between calls). -/
theorem debounce_coalescing {K : Type} [DecidableEq K]
    (calls : List PreviewCall) (s₀ : MixinState K) (t₀ : Nat)
    (hpend : s₀.pendingPreviewKeys = ∅)
    (htimer : s₀.previewUpdateTimer = none)
    (hne : calls ≠ [])
    (hwin : ∀ c ∈ calls, t₀ ≤ c.time ∧ c.time < t₀ + 100)
    (hgood : ∀ c ∈ calls, GoodCall s₀.previewScopeMap c) :
    (runPreviewScenario calls s₀).2
      = [PreviewInvocation.incremental
          (previewCallKeys s₀.previewScopeMap calls)] := by
  obtain ⟨ilog, imap, ipend, _, icons⟩ :=
    runPreviewCalls_good t₀ s₀.previewScopeMap calls s₀ rfl hgood hwin
      (Or.inl htimer)
  obtain ⟨u, _, hu⟩ := icons hne
  simp only [runPreviewScenario]
  rw [ilog]
  simp only [List.nil_append]
  rw [hpend] at ipend
  simp only [fireTimer, hu, if_neg Bool.false_ne_true, Bool.false_eq_true,
    if_false]
  rw [ipend]
  simp

/-- Witness for C4: two calls for scopes `"a"`, `"b"` at 10 ms and 20 ms
produce exactly one incremental invocation with both item keys. -/
theorem debounce_coalescing_witness :
    (runPreviewScenario
        [⟨10, true, some "a"⟩, ⟨20, true, some "b"⟩]
        ({ previewScopeMap := [("a", 1), ("b", 2)], pendingPreviewKeys := ∅,
           previewUpdateTimer := none } : MixinState Nat)).2
      = [PreviewInvocation.incremental
          (previewCallKeys [("a", 1), ("b", 2)]
            [⟨10, true, some "a"⟩, ⟨20, true, some "b"⟩])] := by
  have h := debounce_coalescing (K := Nat)
    [⟨10, true, some "a"⟩, ⟨20, true, some "b"⟩]
    { previewScopeMap := [("a", 1), ("b", 2)], pendingPreviewKeys := ∅,
      previewUpdateTimer := none }
    10 rfl rfl (by simp)
    (by
      intro c hc
      rcases List.mem_cons.mp hc with rfl | hc
      · exact ⟨by decide, by decide⟩
      · rcases List.mem_cons.mp hc with rfl | hc
        · exact ⟨by decide, by decide⟩
        · exact absurd hc (List.not_mem_nil c))
    (by
      intro c hc
      rcases List.mem_cons.mp hc with rfl | hc
      · exact ⟨rfl, "a", rfl, by decide, by decide, by decide, rfl⟩
      · rcases List.mem_cons.mp hc with rfl | hc
        · exact ⟨rfl, "b", rfl, by decide, by decide, by decide, rfl⟩
        · exact absurd hc (List.not_mem_nil c))
  exact h

theorem runPreviewCalls_append {K : Type} [DecidableEq K]
    (l₁ l₂ : List PreviewCall) :
    ∀ s : MixinState K,
      runPreviewCalls (l₁ ++ l₂) s
        = ((runPreviewCalls l₂ (runPreviewCalls l₁ s).1).1,
           (runPreviewCalls l₁ s).2
             ++ (runPreviewCalls l₂ (runPreviewCalls l₁ s).1).2) := by
  induction l₁ with
  | nil => intro s; simp [runPreviewCalls]
  | cons c rest ih =>
    intro s
    simp only [List.cons_append, runPreviewCalls, List.append_eq]
    rw [ih]
    simp [List.append_assoc]

/-- **C10.** If `handle_cross_window_preview_change` first accumulates
pending item keys for mapped scope ids and is then called, before the
debounce timer fires, with arguments resolving to a null scope id, the
scheduled incremental timer is replaced by one connected to the full-refresh
hook: the run produces exactly one full-refresh invocation and no
incremental invocation, and the pending key set still holds the accumulated
keys (it is neither cleared nor passed to any hook). -/
theorem full_refresh_overrides_incremental {K : Type} [DecidableEq K]
    (goodCalls : List PreviewCall) (cNull : PreviewCall) (s₀ : MixinState K)
    (t₀ : Nat)
    (hpend : s₀.pendingPreviewKeys = ∅)
    (htimer : s₀.previewUpdateTimer = none)
    (hne : goodCalls ≠ [])
    (hwin : ∀ c ∈ goodCalls ++ [cNull], t₀ ≤ c.time ∧ c.time < t₀ + 100)
    (hgood : ∀ c ∈ goodCalls, GoodCall s₀.previewScopeMap c)
    (hnsp : cNull.shouldProcess = true)
    (hnull : cNull.scopeId = none) :
    (runPreviewScenario (goodCalls ++ [cNull]) s₀).2
      = [PreviewInvocation.fullRefresh] ∧
    (runPreviewScenario (goodCalls ++ [cNull]) s₀).1.pendingPreviewKeys
      = previewCallKeys s₀.previewScopeMap goodCalls := by
  obtain ⟨ilog, imap, ipend, _, icons⟩ :=
    runPreviewCalls_good t₀ s₀.previewScopeMap goodCalls s₀ rfl hgood
      (fun c hc => hwin c (List.mem_append_left _ hc)) (Or.inl htimer)
  obtain ⟨u, hu₀, hu⟩ := icons hne
  have hcnull := hwin cNull (List.mem_append_right _ (List.mem_cons_self _ _))
  set s' : MixinState K := (runPreviewCalls goodCalls s₀).1 with hs'
  -- the null call arrives before the incremental timer expires, so no firing
  have hfire : fireIfDue (K := K) cNull.time s' = (s', []) := by
    have : ¬ (u + 100 ≤ cNull.time) := by omega
    simp [fireIfDue, hu, this]
  have hstep : handle_cross_window_preview_change cNull.shouldProcess
      cNull.scopeId cNull.time s' = schedulePreviewUpdate true cNull.time s' := by
    rw [hnsp, hnull]
    rfl
  have hrun : runPreviewCalls (goodCalls ++ [cNull]) s₀
      = (schedulePreviewUpdate true cNull.time s', []) := by
    rw [runPreviewCalls_append]
    rw [ilog, ← hs']
    simp only [runPreviewCalls, hfire, hstep]
    simp [runPreviewCalls]
  constructor
  · simp only [runPreviewScenario, hrun]
    simp [fireTimer, schedulePreviewUpdate]
  · simp only [runPreviewScenario, hrun]
    simp [fireTimer, schedulePreviewUpdate, ipend, hpend]

/-- Witness for C10: one call for scope `"a"` at 10 ms, then a null-scope
call at 20 ms: only the full-refresh hook fires and the pending key set
retains key `1`. -/
theorem full_refresh_overrides_incremental_witness :
    (runPreviewScenario [⟨10, true, some "a"⟩, ⟨20, true, none⟩]
        ({ previewScopeMap := [("a", 1), ("b", 2)], pendingPreviewKeys := ∅,
           previewUpdateTimer := none } : MixinState Nat)).2
      = [PreviewInvocation.fullRefresh] ∧
    (runPreviewScenario [⟨10, true, some "a"⟩, ⟨20, true, none⟩]
        ({ previewScopeMap := [("a", 1), ("b", 2)], pendingPreviewKeys := ∅,
           previewUpdateTimer := none } : MixinState Nat)).1.pendingPreviewKeys
      = previewCallKeys [("a", 1), ("b", 2)] [⟨10, true, some "a"⟩] := by
  have h := full_refresh_overrides_incremental (K := Nat)
    [⟨10, true, some "a"⟩] ⟨20, true, none⟩
    { previewScopeMap := [("a", 1), ("b", 2)], pendingPreviewKeys := ∅,
      previewUpdateTimer := none }
    10 rfl rfl (by simp)
    (by
      intro c hc
      rcases List.mem_cons.mp hc with rfl | hc
      · exact ⟨by decide, by decide⟩
      · rcases List.mem_cons.mp hc with rfl | hc
        · exact ⟨by decide, by decide⟩
        · exact absurd hc (List.not_mem_nil c))
    (by
      intro c hc
      rcases List.mem_cons.mp hc with rfl | hc
      · exact ⟨rfl, "a", rfl, by decide, by decide, by decide, rfl⟩
      · exact absurd hc (List.not_mem_nil c))
    rfl rfl
  exact h

/-! ## WindowManager: scoped singleton windows

From `window_manager.py`.  A Qt widget is embedded by its identity, whether
its C++ object is still alive (any property access such as `windowTitle()`
raises `RuntimeError` once deleted), its visibility and its minimization
state.  `_scoped_windows` is an association list `scope_id → window`; Python
mutates the registered window object in place, so the embedding writes the
updated window back into the registry.  Factory invocations and
window-toolkit calls are returned as an event log.  The optional
`item_id`/`field_path` deferred navigation of `show_or_focus` is modelled
separately (see the `_deferred_navigate` section below). -/

/-- A window as observed by the manager. -/
structure Window : Type where
  wid : Nat
  alive : Bool
  visible : Bool
  minimized : Bool
  deriving DecidableEq

/-- The window registry `_scoped_windows`. -/
abbrev WindowRegistry := List (String × Window)

/-- Observable effects of `show_or_focus`. -/
inductive WindowEvent : Type where
  | factoryCalled (wid : Nat)
  | shown (wid : Nat)
  | raised (wid : Nat)
  | activated (wid : Nat)
  | restored (wid : Nat)
  deriving DecidableEq

/-- Number of factory invocations in an event log. -/
def factoryCalls (evs : List WindowEvent) : Nat :=
  (evs.filter (fun e => match e with
    | .factoryCalled _ => true
    | _ => false)).length

/-- The bring-to-front sequence of the reuse path of `show_or_focus`:
`show()` if not visible, `raise_()`, `activateWindow()`, `showNormal()` if
minimized. -/
def bringToFront (w : Window) : Window × List WindowEvent :=
  let p := if w.visible then (w, ([] : List WindowEvent))
           else ({ w with visible := true }, [WindowEvent.shown w.wid])
  let q := if p.1.minimized then ({ p.1 with minimized := false }, [WindowEvent.restored w.wid])
           else (p.1, ([] : List WindowEvent))
  (q.1, p.2 ++ [WindowEvent.raised w.wid, WindowEvent.activated w.wid] ++ q.2)

/-- The create path of `show_or_focus`: invoke the factory, register the
window, install the close wrapper (auto-unregister, not observable here),
and `show()` it (mutating the registered object). -/
def createAndShow (scope : String) (factory : Window) (reg : WindowRegistry) :
    Window × WindowRegistry × List WindowEvent :=
  let w := { factory with visible := true }
  (w, dset reg scope w, [WindowEvent.factoryCalled factory.wid,
    WindowEvent.shown factory.wid])

/-- `show_or_focus(scope_id, window_factory)`: reuse and focus a registered
still-alive window; purge a stale (deleted) entry and fall through to
creation; otherwise create, register, and show a new window. -/
def show_or_focus (scope : String) (factory : Window) (reg : WindowRegistry) :
    Window × WindowRegistry × List WindowEvent :=
  match dget reg scope with
  | some w =>
    if w.alive then
      let p := bringToFront w
      (p.1, dset reg scope p.1, p.2)
    else
      createAndShow scope factory (ddel reg scope)
  | none => createAndShow scope factory reg

/-- `is_open(scope_id)`: `True` iff a registered window exists, is valid and
is visible; a non-visible or deleted window is purged as a side effect. -/
def is_open (scope : String) (reg : WindowRegistry) : Bool × WindowRegistry :=
  match dget reg scope with
  | none => (false, reg)
  | some w =>
    if w.alive then
      if w.visible then (true, reg) else (false, ddel reg scope)
    else (false, ddel reg scope)

theorem dget_ddel_self {K V : Type} [DecidableEq K] (d : List (K × V)) (k : K) :
    dget (ddel d k) k = none := by
  induction d with
  | nil => rfl
  | cons p rest ih =>
    obtain ⟨k₀, v₀⟩ := p
    by_cases h : k₀ = k
    · subst h
      simp only [ddel, List.filter] at ih ⊢
      simpa using ih
    · have h₂ : ¬ k₀ = k := h
      simp only [ddel, List.filter] at ih ⊢
      simp only [dget] at ih ⊢
      simp [List.find?, h₂]

theorem show_or_focus_of_found (reg : WindowRegistry) (scope : String)
    (w : Window) (factory : Window)
    (hreg : dget reg scope = some w) (halive : w.alive = true) :
    show_or_focus scope factory reg
      = ((bringToFront w).1, dset reg scope (bringToFront w).1,
         (bringToFront w).2) := by
  simp [show_or_focus, hreg, halive]

theorem factoryCalls_bringToFront (w : Window) :
    factoryCalls (bringToFront w).2 = 0 := by
  by_cases hv : w.visible <;> by_cases hm : w.minimized <;>
    simp [bringToFront, hv, hm, factoryCalls, List.filter]

theorem bringToFront_fst (w : Window) :
    (bringToFront w).1 = { w with visible := true, minimized := false } := by
  cases w with
  | mk wid al vis mini => cases vis <;> cases mini <;> simp [bringToFront]

/-- **C6.** For a scope with a registered, still-alive window,
`show_or_focus` never invokes the factory: it returns the registered window
after bringing it to front (showing it if hidden, raising and activating it,
restoring it if minimized); and two sequential `show_or_focus` calls for the
same scope, starting from a registry without that scope and with the first
window remaining open, invoke the factory exactly once in total. -/
theorem show_or_focus_singleton (reg : WindowRegistry) (scope : String)
    (w : Window) (factory : Window)
    (hreg : dget reg scope = some w) (halive : w.alive = true) :
    show_or_focus scope factory reg
      = ((bringToFront w).1, dset reg scope (bringToFront w).1,
         (bringToFront w).2) ∧
    factoryCalls (show_or_focus scope factory reg).2.2 = 0 ∧
    (show_or_focus scope factory reg).1
      = { w with visible := true, minimized := false } ∧
    WindowEvent.raised w.wid ∈ (show_or_focus scope factory reg).2.2 ∧
    WindowEvent.activated w.wid ∈ (show_or_focus scope factory reg).2.2 ∧
    (w.visible = false →
      WindowEvent.shown w.wid ∈ (show_or_focus scope factory reg).2.2) ∧
    (w.minimized = true →
      WindowEvent.restored w.wid ∈ (show_or_focus scope factory reg).2.2) ∧
    (∀ (reg₀ : WindowRegistry) (f₁ f₂ : Window),
      dget reg₀ scope = none → f₁.alive = true →
      factoryCalls ((show_or_focus scope f₁ reg₀).2.2
        ++ (show_or_focus scope f₂ (show_or_focus scope f₁ reg₀).2.1).2.2) = 1) := by
  have hmain := show_or_focus_of_found reg scope w factory hreg halive
  have hfront := bringToFront_fst w
  refine ⟨hmain, ?_, ?_, ?_, ?_, ?_, ?_, ?_⟩
  · rw [hmain]
    exact factoryCalls_bringToFront w
  · rw [hmain]; exact hfront
  · rw [hmain]
    by_cases hv : w.visible <;> by_cases hm : w.minimized <;>
      simp [bringToFront, hv, hm]
  · rw [hmain]
    by_cases hv : w.visible <;> by_cases hm : w.minimized <;>
      simp [bringToFront, hv, hm]
  · intro hv
    rw [hmain]
    by_cases hm : w.minimized <;> simp [bringToFront, hv, hm]
  · intro hm
    rw [hmain]
    by_cases hv : w.visible <;> simp [bringToFront, hv, hm]
  · intro reg₀ f₁ f₂ hnone hf₁
    have h₁ : show_or_focus scope f₁ reg₀
        = ({ f₁ with visible := true }, dset reg₀ scope { f₁ with visible := true },
           [WindowEvent.factoryCalled f₁.wid, WindowEvent.shown f₁.wid]) := by
      simp [show_or_focus, hnone, createAndShow]
    have h₂get : dget (dset reg₀ scope { f₁ with visible := true }) scope
        = some { f₁ with visible := true } := by
      rw [dget_dset]; simp
    have h₂ := show_or_focus_of_found
      (dset reg₀ scope { f₁ with visible := true }) scope
      { f₁ with visible := true } f₂ h₂get hf₁
    rw [h₁, h₂]
    simp only [factoryCalls, List.filter_append, List.length_append]
    have h₀ := factoryCalls_bringToFront ({ f₁ with visible := true } : Window)
    simp only [factoryCalls] at h₀
    rw [h₀]
    simp [List.filter]

/-- Witness for C6 at a concrete registry with a hidden, minimized, alive
window. -/
theorem show_or_focus_singleton_witness :
    factoryCalls (show_or_focus "s" (Window.mk 9 true false false)
        [("s", Window.mk 1 true false true)]).2.2 = 0 ∧
    (show_or_focus "s" (Window.mk 9 true false false)
        [("s", Window.mk 1 true false true)]).1 = Window.mk 1 true true false ∧
    factoryCalls ((show_or_focus "s" (Window.mk 2 true false false) []).2.2
      ++ (show_or_focus "s" (Window.mk 3 true false false)
          (show_or_focus "s" (Window.mk 2 true false false) []).2.1).2.2) = 1 := by
  have h := show_or_focus_singleton [("s", Window.mk 1 true false true)] "s"
    (Window.mk 1 true false true) (Window.mk 9 true false false) rfl rfl
  exact ⟨h.2.1, h.2.2.1,
    h.2.2.2.2.2.2.2 [] (Window.mk 2 true false false) (Window.mk 3 true false false)
      rfl rfl⟩

/-- **C9.** For a scope whose registered window is alive but not visible,
`is_open` returns `False` and removes the registry entry, so a subsequent
`show_or_focus` for that scope invokes the factory and constructs a new
window even though the previous window object still exists. -/
theorem is_open_hidden_purges (reg : WindowRegistry) (scope : String)
    (w : Window) (factory : Window)
    (hreg : dget reg scope = some w) (halive : w.alive = true)
    (hhidden : w.visible = false) :
    (is_open scope reg).1 = false ∧
    dget (is_open scope reg).2 scope = none ∧
    (show_or_focus scope factory (is_open scope reg).2).2.2
      = [WindowEvent.factoryCalled factory.wid, WindowEvent.shown factory.wid] ∧
    factoryCalls (show_or_focus scope factory (is_open scope reg).2).2.2 = 1 := by
  have hopen : is_open scope reg = (false, ddel reg scope) := by
    simp [is_open, hreg, halive, hhidden]
  have hget : dget (ddel reg scope) scope = none := dget_ddel_self reg scope
  refine ⟨by rw [hopen], by rw [hopen]; exact hget, ?_, ?_⟩
  · rw [hopen]
    simp [show_or_focus, hget, createAndShow]
  · rw [hopen]
    simp [show_or_focus, hget, createAndShow, factoryCalls, List.filter]

/-- Witness for C9 at a concrete registry with a hidden, alive window. -/
theorem is_open_hidden_purges_witness :
    (is_open "s" [("s", Window.mk 1 true false false)]).1 = false ∧
    dget (is_open "s" [("s", Window.mk 1 true false false)]).2 "s" = none ∧
    (show_or_focus "s" (Window.mk 7 true false false)
        (is_open "s" [("s", Window.mk 1 true false false)]).2).2.2
      = [WindowEvent.factoryCalled 7, WindowEvent.shown 7] ∧
    factoryCalls (show_or_focus "s" (Window.mk 7 true false false)
        (is_open "s" [("s", Window.mk 1 true false false)]).2).2.2 = 1 :=
  is_open_hidden_purges [("s", Window.mk 1 true false false)] "s"
    (Window.mk 1 true false false) (Window.mk 7 true false false) rfl rfl rfl

/-! ## WindowManager._deferred_navigate: bounded retry of the widget-ready check

From `window_manager.py` (`_check_and_navigate` / `_do_navigation`).  The
duck-typed `hasattr` probes and widget-readiness observations are embedded
as boolean fields of the window as seen at each check; `some p` for
`item_id`/`field_path` stands for a truthy (non-empty) Python string and
`dotted` for `'.' in field_path`.  A registered build-complete callback
increments `_nav_retry_count` and re-enters the check after 50 ms; the run
below iterates the check as long as each entry registers a retry (the
never-ready scenario), with a fuel bound strictly larger than the retry
budget. -/

/-- Observable effects of the deferred-navigation check. -/
inductive NavEvent : Type where
  | registerRetry
  | warnMaxRetries
  | scrollToItem (id : String)
  | scrollToField (p : String)
  deriving DecidableEq

/-- The window (and its form manager) as seen by one entry of
`_check_and_navigate`. -/
structure NavWindow : Type where
  alive : Bool
  hasFormManager : Bool
  hasWidgetsAttr : Bool
  widgetsEmpty : Bool
  nestedReady : Bool
  hasCallbacks : Bool
  hasScrollToItem : Bool
  hasScrollToField : Bool
  hasItemList : Bool
  hasScopeToListItem : Bool
  scopeToListItemEmpty : Bool
  navRetryCount : Nat
  deriving DecidableEq

/-- `_do_navigation`: scroll to the item and/or field when the window is
still alive and happens to implement the corresponding hook. -/
def doNavigation (w : NavWindow) (itemId fieldPath : Option String) :
    List NavEvent :=
  if w.alive = false then []
  else
    (match itemId with
     | some i => if w.hasScrollToItem then [NavEvent.scrollToItem i] else []
     | none => []) ++
    (match fieldPath with
     | some p => if w.hasScrollToField then [NavEvent.scrollToField p] else []
     | none => [])

/-- The `needs_wait` computation of `_check_and_navigate`: root widgets not
built yet, or (for dotted paths) a missing nested manager; or, for item
navigation, an empty `_scope_to_list_item`. -/
def needsWait (w : NavWindow) (itemId fieldPath : Option String)
    (dotted : Bool) : Bool :=
  (fieldPath.isSome && w.hasFormManager &&
    ((w.hasWidgetsAttr && w.widgetsEmpty) ||
     (!(w.hasWidgetsAttr && w.widgetsEmpty) && dotted && !w.nestedReady))) ||
  (itemId.isSome && w.hasItemList && w.hasScopeToListItem &&
    w.scopeToListItemEmpty)

/-- One entry of `_check_and_navigate`: returns the emitted events and
whether a retry callback was registered.  When the retry budget is
exhausted the code logs the max-retries warning and then falls through to
`_do_navigation` (there is no `return` after the warning). -/
def checkAndNavigate (w : NavWindow) (itemId fieldPath : Option String)
    (dotted : Bool) : List NavEvent × Bool :=
  if w.alive = false then ([], false)
  else if needsWait w itemId fieldPath dotted && w.hasFormManager &&
      w.hasCallbacks && decide (w.navRetryCount < 10) then
    ([NavEvent.registerRetry], true)
  else
    let warn :=
      if needsWait w itemId fieldPath dotted && w.hasFormManager &&
          w.hasCallbacks && !(decide (w.navRetryCount < 10)) then
        [NavEvent.warnMaxRetries]
      else []
    (warn ++ doNavigation w itemId fieldPath, false)

/-- Iterate `_check_and_navigate` entries: each registered retry callback
bumps `_nav_retry_count` and re-enters the check.  `fuel` bounds the
iteration (any value above the retry budget is exact for a never-ready
window). -/
def deferredNavigateRun : Nat → NavWindow → Option String → Option String →
    Bool → List NavEvent
  | 0, _, _, _, _ => []
  | fuel + 1, w, itemId, fieldPath, dotted =>
    let r := checkAndNavigate w itemId fieldPath dotted
    if r.2 then
      r.1 ++ deferredNavigateRun fuel
        { w with navRetryCount := w.navRetryCount + 1 } itemId fieldPath dotted
    else r.1

/-- A window whose target widgets never become ready: alive, with a form
manager whose root `widgets` collection stays empty, a build-complete
callback list, and a `select_and_scroll_to_field` implementation. -/
def neverReadyWindow : NavWindow :=
  { alive := true, hasFormManager := true, hasWidgetsAttr := true,
    widgetsEmpty := true, nestedReady := false, hasCallbacks := true,
    hasScrollToItem := false, hasScrollToField := true, hasItemList := false,
    hasScopeToListItem := false, scopeToListItemEmpty := false,
    navRetryCount := 0 }

/-- **C5.** For a deferred field navigation whose target widgets are never
ready, the check retries exactly 10 times; but once the retry bound is
exceeded the code logs the max-retries warning and then still falls through
to `_do_navigation`, invoking `select_and_scroll_to_field` — the scroll is
performed rather than silently abandoned, contradicting the claim (the
`return` after the warning is missing). -/
theorem deferred_navigate_retry_overrun :
    deferredNavigateRun 12 neverReadyWindow none (some "cfg.sub") true
      = List.replicate 10 NavEvent.registerRetry
        ++ [NavEvent.warnMaxRetries, NavEvent.scrollToField "cfg.sub"] ∧
    NavEvent.scrollToField "cfg.sub"
      ∈ deferredNavigateRun 12 neverReadyWindow none (some "cfg.sub") true := by
  constructor
  · rfl
  · rw [show deferredNavigateRun 12 neverReadyWindow none (some "cfg.sub") true
        = List.replicate 10 NavEvent.registerRetry
          ++ [NavEvent.warnMaxRetries, NavEvent.scrollToField "cfg.sub"]
      from rfl]
    simp

/-! ## IntervalSnapshotPoller

From `interval_snapshot_poller.py`.  Every mutation of poller state happens
inside `with self._lock:` blocks, so the embedding treats each such critical
section as one atomic state transition; an interleaving of `tick`, `reset`
and a worker completion is a sequence of these transitions.  Wall-clock
times are `Nat` (the Python float comparison `now - last < interval` is
embedded as `now < last + interval`, equivalent for monotone clocks).
`clone` is the policy's `clone_snapshot`. -/

/-- The poller's lock-protected state. -/
structure PollerState (S : Type) : Type where
  snapshot : Option S
  inflight : Bool
  inflightGeneration : Option Nat
  lastPollTs : Nat
  generation : Nat

/-- `tick()`: launch one background poll if the inflight and interval gates
allow it; returns the generation handed to the launched worker (`none` if
nothing was launched). -/
def tick {S : Type} (interval now : Nat) (s : PollerState S) :
    PollerState S × Option Nat :=
  if s.inflight then (s, none)
  else if now < s.lastPollTs + interval then (s, none)
  else
    ({ s with
        inflight := true, lastPollTs := now,
        inflightGeneration := some s.generation },
      some s.generation)

/-- `get_snapshot_copy()`: a clone of the last good snapshot, if any. -/
def get_snapshot_copy {S : Type} (clone : S → S) (s : PollerState S) :
    Option S :=
  s.snapshot.map clone

/-- `reset()`: drop the snapshot, clear the interval gate and bump the
generation counter. -/
def reset {S : Type} (s : PollerState S) : PollerState S :=
  { s with snapshot := none, lastPollTs := 0, generation := s.generation + 1 }

/-- `_poll_worker` completion for a successful fetch: apply the result only
when the worker's generation is still current (emitting the changed
callback's clone when the value changed); the `finally` block clears the
inflight flag when this worker is the one recorded as inflight. -/
def pollWorkerComplete {S : Type} [DecidableEq S] (gen : Nat) (fetched : S)
    (clone : S → S) (s : PollerState S) : PollerState S × Option S :=
  let p :=
    if gen ≠ s.generation then (s, none)
    else
      ({ s with snapshot := some fetched },
       if some fetched ≠ s.snapshot then some (clone fetched) else none)
  if p.1.inflightGeneration = some gen then
    ({ p.1 with inflight := false, inflightGeneration := none }, p.2)
  else p

/-- **C8.** If `reset()` is called while a fetch is in flight, the fetch's
result is never applied on completion: no changed callback fires, the
externally visible snapshot stays empty, and the inflight flag is cleared;
a subsequent `tick()` launches a fresh fetch (under the bumped generation)
whose completion populates the snapshot normally. -/
theorem poller_reset_staleness {S : Type} [DecidableEq S]
    (interval now₁ now₂ : Nat) (r₁ r₂ : S) (clone : S → S) (s₀ : PollerState S)
    (h0 : s₀.inflight = false)
    (h1 : s₀.lastPollTs + interval ≤ now₁)
    (h2 : interval ≤ now₂) :
    (tick interval now₁ s₀).2 = some s₀.generation ∧
    (pollWorkerComplete s₀.generation r₁ clone
        (reset (tick interval now₁ s₀).1)).2 = none ∧
    (pollWorkerComplete s₀.generation r₁ clone
        (reset (tick interval now₁ s₀).1)).1.snapshot = none ∧
    get_snapshot_copy clone
        (pollWorkerComplete s₀.generation r₁ clone
          (reset (tick interval now₁ s₀).1)).1 = none ∧
    (pollWorkerComplete s₀.generation r₁ clone
        (reset (tick interval now₁ s₀).1)).1.inflight = false ∧
    (tick interval now₂
        (pollWorkerComplete s₀.generation r₁ clone
          (reset (tick interval now₁ s₀).1)).1).2 = some (s₀.generation + 1) ∧
    (pollWorkerComplete (s₀.generation + 1) r₂ clone
        (tick interval now₂
          (pollWorkerComplete s₀.generation r₁ clone
            (reset (tick interval now₁ s₀).1)).1).1).1.snapshot = some r₂ ∧
    get_snapshot_copy clone
        (pollWorkerComplete (s₀.generation + 1) r₂ clone
          (tick interval now₂
            (pollWorkerComplete s₀.generation r₁ clone
              (reset (tick interval now₁ s₀).1)).1).1).1 = some (clone r₂) ∧
    (pollWorkerComplete (s₀.generation + 1) r₂ clone
        (tick interval now₂
          (pollWorkerComplete s₀.generation r₁ clone
            (reset (tick interval now₁ s₀).1)).1).1).2 = some (clone r₂) ∧
    (pollWorkerComplete (s₀.generation + 1) r₂ clone
        (tick interval now₂
          (pollWorkerComplete s₀.generation r₁ clone
            (reset (tick interval now₁ s₀).1)).1).1).1.inflight = false := by
  obtain ⟨snap₀, infl₀, ig₀, ts₀, gen₀⟩ := s₀
  simp only at h0 h1 ⊢
  subst h0
  have hc₁ : ¬ (now₁ < ts₀ + interval) := by omega
  have hc₂ : ¬ (now₂ < 0 + interval) := by omega
  have hc₂' : ¬ (now₂ < interval) := by omega
  have hg : ¬ (gen₀ = gen₀ + 1) := by omega
  have hg' : gen₀ ≠ gen₀ + 1 := hg
  simp [tick, reset, pollWorkerComplete, get_snapshot_copy, hc₁, hc₂, hc₂', hg']

/-- A concrete initial poller state for the C8 witness. -/
def poller0 : PollerState Nat :=
  { snapshot := none, inflight := false, inflightGeneration := none,
    lastPollTs := 0, generation := 0 }

/-- Witness for C8 at a concrete poller state and schedule. -/
theorem poller_reset_staleness_witness :
    (tick 5 10 poller0).2 = some poller0.generation ∧
    (pollWorkerComplete poller0.generation 41 id
        (reset (tick 5 10 poller0).1)).2 = none ∧
    (pollWorkerComplete poller0.generation 41 id
        (reset (tick 5 10 poller0).1)).1.snapshot = none ∧
    get_snapshot_copy id
        (pollWorkerComplete poller0.generation 41 id
          (reset (tick 5 10 poller0).1)).1 = none ∧
    (pollWorkerComplete poller0.generation 41 id
        (reset (tick 5 10 poller0).1)).1.inflight = false ∧
    (tick 5 20
        (pollWorkerComplete poller0.generation 41 id
          (reset (tick 5 10 poller0).1)).1).2 = some (poller0.generation + 1) ∧
    (pollWorkerComplete (poller0.generation + 1) 42 id
        (tick 5 20
          (pollWorkerComplete poller0.generation 41 id
            (reset (tick 5 10 poller0).1)).1).1).1.snapshot = some 42 ∧
    get_snapshot_copy id
        (pollWorkerComplete (poller0.generation + 1) 42 id
          (tick 5 20
            (pollWorkerComplete poller0.generation 41 id
              (reset (tick 5 10 poller0).1)).1).1).1 = some (id 42) ∧
    (pollWorkerComplete (poller0.generation + 1) 42 id
        (tick 5 20
          (pollWorkerComplete poller0.generation 41 id
            (reset (tick 5 10 poller0).1)).1).1).2 = some (id 42) ∧
    (pollWorkerComplete (poller0.generation + 1) 42 id
        (tick 5 20
          (pollWorkerComplete poller0.generation 41 id
            (reset (tick 5 10 poller0).1)).1).1).1.inflight = false :=
  poller_reset_staleness 5 10 20 41 42 id poller0 rfl (by decide) (by decide)

end PyQtReactive
